import Mathlib

/-!
Shallow embedding of `IPython/html/base/handlers.py` (base Tornado handlers for
the notebook server).  Python strings are modelled as Lean `String`; filesystem
paths are modelled as already-normalized absolute strings with `/` as the
separator (`os.sep`); the filesystem itself is modelled by boolean predicates.
Python `None` is modelled by `Option`.
-/

namespace Handlers

/-! ### CookieAuth (`AuthenticatedHandler`) -/

/-- Embeds the regex `non_alphanum = re.compile(r'[^A-Za-z0-9]')`:
a character matches the class `[A-Za-z0-9]`. -/
def isAlphanumChar (c : Char) : Bool :=
  ('A' ≤ c && c ≤ 'Z') || ('a' ≤ c && c ≤ 'z') || ('0' ≤ c && c ≤ '9')

/-- Embeds `non_alphanum.sub('-', s)`: every character outside `[A-Za-z0-9]`
is replaced by `-`. -/
def non_alphanum_sub (s : String) : String :=
  String.mk (s.data.map (fun c => if isAlphanumChar c then c else '-'))

/-- Embeds the `cookie_name` property: `settings.get('cookie_name', default)`
where the default is `non_alphanum.sub('-', 'username-{host}')`.
`configured` is the optional `cookie_name` entry of the settings dict. -/
def cookie_name (configured : Option String) (host : String) : String :=
  configured.getD (non_alphanum_sub ("username-" ++ host))

/-- Embeds `AuthenticatedHandler.get_current_user`.
`cookie` is the result of `get_secure_cookie` (`none` = missing or invalid
signature); `login_available` is `bool(settings.get('password',''))`.
The `clear_login_cookie()` side effect carries no data and is dropped.
The Python function can return `None` ("not logged in"), hence `Option`. -/
def get_current_user (cookie : Option String) (login_available : Bool) : Option String :=
  let user_id := if cookie = some "" then some "anonymous" else cookie
  match user_id with
  | none => if !login_available then some "anonymous" else none
  | some u => some u

/-! ### CorsPolicy (`IPythonHandler.set_default_headers` / `get_origin`) -/

/-- CORS-relevant settings: `allow_origin` (empty string when unset),
`allow_origin_pat` (a compiled regex, modelled as a match predicate) and
`allow_credentials`. -/
structure CorsConfig where
  allow_origin : String
  allow_origin_pat : Option (String → Bool)
  allow_credentials : Bool

/-- First value for a header key in a request-header list. -/
def lookupHeader (headers : List (String × String)) (k : String) : Option String :=
  (headers.find? (fun h => h.1 == k)).map Prod.snd

/-- Embeds `IPythonHandler.get_origin`: if an `Origin` header is present use
it, else fall back to `Sec-Websocket-Origin` (possibly `None`). -/
def get_origin (headers : List (String × String)) : Option String :=
  if headers.any (fun h => h.1 == "Origin") then
    lookupHeader headers "Origin"
  else
    lookupHeader headers "Sec-Websocket-Origin"

/-- Embeds the CORS part of `IPythonHandler.set_default_headers`: the list of
headers this method sets beyond the superclass call.  `if self.allow_origin:`
is Python string truthiness (non-empty); `if origin and pat.match(origin)`
requires the origin to be present, non-empty and matched. -/
def set_cors_headers (cfg : CorsConfig) (reqHeaders : List (String × String)) :
    List (String × String) :=
  (if cfg.allow_origin = "" then
    match cfg.allow_origin_pat with
    | none => []
    | some pat =>
      match get_origin reqHeaders with
      | none => []
      | some origin =>
        if origin ≠ "" && pat origin then
          [("Access-Control-Allow-Origin", origin)]
        else []
  else [("Access-Control-Allow-Origin", cfg.allow_origin)])
  ++ (if cfg.allow_credentials then [("Access-Control-Allow-Credentials", "true")] else [])

/-! ### JSON error envelope (`json_errors`) -/

/-- A minimal JSON value model, enough for the bodies built by `json_errors`
(`json.dumps(dict(...))`). -/
inductive Json where
  | null
  | str (s : String)
  | obj (fields : List (String × Json))

/-- How a wrapped handler method terminates: normal return, a structured
`web.HTTPError` (carrying `status_code` and `log_message`, which Python may
leave as `None`), or any other exception (carried as its opaque rendering). -/
inductive MethodResult (α : Type) where
  | ok (v : α)
  | httpError (status : Nat) (log_message : Option String)
  | exn (excText : String)

/-- Models Python stdlib `''.join(traceback.format_exception(t, value, tb))`
(external dependency, not in src/): the formatted text always begins with the
fixed `Traceback` heading line, followed by the exception rendering, so it is
never empty. -/
def format_exception (excText : String) : String :=
  "Traceback (most recent call last):\n" ++ excText

/-- `json.dumps` of a Python value that is a string or `None`. -/
def optMessageJson : Option String → Json
  | none => .null
  | some m => .str m

/-- Outcome of the `json_errors` wrapper: either the wrapped method's return
value passed through, or a finished response with a status and a JSON body. -/
inductive WrapperOutcome (α : Type) where
  | returned (v : α)
  | finished (status : Nat) (body : Json)

/-- Embeds the `wrapper` closure built by the `json_errors` decorator:
run the method; on `web.HTTPError` set its status code and finish with
`{"message": e.log_message}`; on any other exception set status 500 and
finish with `{"message": "Unknown server error", "traceback": <formatted>}`;
otherwise return the result unchanged.  Logging calls are dropped. -/
def json_errors {α : Type} : MethodResult α → WrapperOutcome α
  | .ok v => .returned v
  | .httpError s m => .finished s (.obj [("message", optMessageJson m)])
  | .exn t =>
    .finished 500 (.obj [("message", .str "Unknown server error"),
                         ("traceback", .str (format_exception t))])

/-! ### HTML error rendering (`IPythonHandler.write_error`) -/

/-- Failure modes of the embedded `write_error`: referencing a local variable
that was never assigned (Python raises `NameError`/`UnboundLocalError`), or
the templating engine's `TemplateNotFound`. -/
inductive PyErr where
  | unboundLocal (name : String)
  | templateNotFound
  deriving DecidableEq

/-- The data `write_error` extracts from `exc_info[1]` when `exc_info` is
supplied: the result of `exception.log_message % exception.args` (`none` when
that formatting raised and was swallowed), `getattr(exception, 'reason', '')`,
and the exception object itself (opaque rendering). -/
structure ExcInfo where
  log_message_formatted : Option String
  reason : String
  excRepr : String

/-- The template namespace `ns` built by `write_error`. -/
structure ErrorNs where
  status_code : Nat
  status_message : String
  message : String
  exception : String

/-- Embeds `IPythonHandler.write_error`.  `responses` models the stdlib
`http.client.responses` dict; `render` models `self.render_template` (it may
fail with `TemplateNotFound`, which the code catches only for the
status-specific template).  Python binds the local `exception` only inside the
`if exc_info:` branch, so when `exc_info` is absent, building the namespace
reads an unassigned local and raises; the embedding returns
`.error (.unboundLocal "exception")` at that point. -/
def write_error (responses : Nat → Option String)
    (render : String → ErrorNs → Except PyErr String)
    (status_code : Nat) (exc_info : Option ExcInfo) : Except PyErr String :=
  let message := ""
  let status_message := (responses status_code).getD "Unknown HTTP Error"
  let st : String × String × Option String :=
    match exc_info with
    | none => (message, status_message, none)
    | some ei =>
      (ei.log_message_formatted.getD message,
       if ei.reason ≠ "" then ei.reason else status_message,
       some ei.excRepr)
  match st.2.2 with
  | none => .error (.unboundLocal "exception")
  | some exc =>
    let ns : ErrorNs := ⟨status_code, st.2.1, st.1, exc⟩
    match render (toString status_code ++ ".html") ns with
    | .ok html => .ok html
    | .error .templateNotFound => render "error.html" ns
    | .error e => .error e

/-! ### Python string primitives

Embedded over the character list `String.data` so that every definition
kernel-evaluates on concrete inputs (`String.startsWith`/`splitOn` use
byte-position machinery that does not reduce). -/

/-- Python `s.startswith(pre)`. -/
def startswith (s pre : String) : Bool :=
  pre.data.isPrefixOf s.data

/-- Python `s.endswith(suf)`. -/
def endswith (s suf : String) : Bool :=
  suf.data.isSuffixOf s.data

/-- Python `s.split('/')` on the character list: splitting an empty string
yields one empty component, and each `/` starts a new component. -/
def splitSlashChars : List Char → List (List Char)
  | [] => [[]]
  | c :: rest =>
    if c = '/' then [] :: splitSlashChars rest
    else
      match splitSlashChars rest with
      | [] => [[c]]
      | h :: t => (c :: h) :: t

/-- Python `path.split('/')`. -/
def splitSlash (s : String) : List String :=
  (splitSlashChars s.data).map String.mk

/-- Python `'/'.join(parts)`. -/
def joinSlash : List String → String
  | [] => ""
  | [s] => s
  | s :: rest => s ++ "/" ++ joinSlash rest

/-! ### StaticPathResolver (`FileFindHandler`) -/

/-- Modelled from the spec: `filefind` from `IPython.utils.path` is not under
src/ — "perform a search across roots in order (first match wins) for a file
matching the requested relative path".  `fs` is the filesystem's file-existence
predicate; roots already carry their trailing separator (see `initialize`),
so the candidate file under root `r` is `r ++ path`.  `none` models the
`IOError` raised when no root contains the file. -/
def filefind (fs : String → Bool) (path : String) (roots : List String) :
    Option String :=
  (roots.find? (fun r => fs (r ++ path))).map (fun r => r ++ path)

/-- Result of one `get_absolute_path` call: the returned path, the class-level
`_static_paths` cache after the call, and an instrumentation flag recording
whether a filesystem search (`filefind`) was performed on this call. -/
structure SearchResult where
  result : String
  cache : List (String × String)
  searched : Bool
  deriving DecidableEq

/-- `path in cls._static_paths` / `cls._static_paths[path]` for the cache,
modelled as an association list. -/
def cacheLookup (cache : List (String × String)) (path : String) : Option String :=
  (cache.find? (fun e => e.1 == path)).map Prod.snd

/-- Embeds `FileFindHandler.get_absolute_path` (the lock is a no-op in this
sequential model).  On a cache hit, return the cached value without searching.
On a miss, search via `filefind`; `IOError` (not found) returns `''` WITHOUT
touching the cache; a successful search stores `os.path.abspath(found)`
(identity on our normalized paths) in the cache and returns it. -/
def get_absolute_path (fs : String → Bool) (roots : List String)
    (cache : List (String × String)) (path : String) : SearchResult :=
  match cacheLookup cache path with
  | some v => ⟨v, cache, false⟩
  | none =>
    match filefind fs path roots with
    | none => ⟨"", cache, true⟩
    | some abspath => ⟨abspath, (path, abspath) :: cache, true⟩

/-- Outcome of a `validate_absolute_path` call: the validated path, or the
status of the `web.HTTPError` it raises. -/
inductive Validation where
  | ok (path : String)
  | httpError (status : Nat)
  deriving DecidableEq

/-- Modelled from tornado's `StaticFileHandler.validate_absolute_path`
(external dependency, not in src/): normalize the root to carry a trailing
separator, reject a path not under the root with 403, a missing path with
404 and a non-regular file with 403, else return the path.  `pexists` and
`isfile` model `os.path.exists` / `os.path.isfile`; the directory /
default-filename redirect branch is not modelled (not exercised by the
claims). -/
def tornado_validate_absolute_path (pexists isfile : String → Bool)
    (root : String) (absolute_path : String) : Validation :=
  let rootSep := if endswith root "/" then root else root ++ "/"
  if !(startswith (absolute_path ++ "/") rootSep) then .httpError 403
  else if !pexists absolute_path then .httpError 404
  else if !isfile absolute_path then .httpError 403
  else .ok absolute_path

/-- Embeds the `for root in self.root: if (absolute_path + os.sep).startswith(root): break`
loop of `FileFindHandler.validate_absolute_path`: the loop variable `root`
shadows the parameter (`init`); after the loop it holds the first matching
root, or the last element when none matched, or the parameter when
`self.root` is empty. -/
def ffh_loop_root (init : String) (p : String) : List String → String
  | [] => init
  | r :: rs => if startswith (p ++ "/") r then r else ffh_loop_root r p rs

/-- Embeds `FileFindHandler.validate_absolute_path`: the `''` sentinel raises
404; otherwise the containment loop selects a root and the call is delegated
to tornado's own validation with that root. -/
def ffh_validate_absolute_path (pexists isfile : String → Bool)
    (param_root : String) (roots : List String) (absolute_path : String) :
    Validation :=
  if absolute_path = "" then .httpError 404
  else
    tornado_validate_absolute_path pexists isfile
      (ffh_loop_root param_root absolute_path roots) absolute_path

/-! ### Hidden-file exclusion (`AuthenticatedFileHandler.validate_absolute_path`) -/

/-- Modelled from the spec: `is_hidden` from `IPython.html.utils` is not under
src/ — "any path component beginning with a hidden-file marker (platform-
specific, e.g. a leading dot) anywhere in the path from the root to the
target".  The components of the path relative to `abs_root` are examined for
a leading dot. -/
def is_hidden (abs_path abs_root : String) : Bool :=
  ((splitSlash (String.mk (abs_path.data.drop abs_root.length))).any
    (fun comp => startswith comp "."))

/-- Embeds `AuthenticatedFileHandler.validate_absolute_path`: first run
tornado's own validation; on success, a hidden path (relative to
`os.path.abspath(root)`, identity on our normalized paths) raises 404. -/
def afh_validate_absolute_path (pexists isfile : String → Bool)
    (root : String) (absolute_path : String) : Validation :=
  match tornado_validate_absolute_path pexists isfile root absolute_path with
  | .ok abs_path => if is_hidden abs_path root then .httpError 404 else .ok abs_path
  | e => e

/-! ### RedirectRules (`TrailingSlashHandler`, `FilesRedirectHandler`) -/

/-- Embeds Python `s.rstrip('/')`: remove all trailing `/` characters. -/
def rstripSlash (s : String) : String :=
  String.mk ((s.data.reverse.dropWhile (fun c => c == '/')).reverse)

/-- Embeds `TrailingSlashHandler.get`: the redirect target is
`self.request.uri.rstrip('/')`. -/
def trailing_slash_get (uri : String) : String :=
  rstripSlash uri

/-- Outcome of `FilesRedirectHandler.get`: a redirect to the /tree URL built
from `path`, a redirect to the /files URL built from `(path, name)` (URL
assembly via `url_path_join`/`url_escape`, external to src/, is abstracted
into the constructor arguments), or a 404. -/
inductive RedirectOutcome where
  | tree (path : String)
  | files (path name : String)
  | err404
  deriving DecidableEq

/-- Embeds `FilesRedirectHandler.get`.  `path_exists`/`file_exists` model the
contents manager's methods (`file_exists` takes `name` then `path`).  The
legacy branch removes the FIRST `'files'` segment (`parts.remove('files')`)
and recomputes `path`; `name` keeps its original value. -/
def files_redirect_get (path_exists : String → Bool)
    (file_exists : String → String → Bool) (path : String) : RedirectOutcome :=
  if path_exists path then .tree path
  else
    let parts := splitSlash path
    let name := parts.getLastD ""
    let path1 := joinSlash parts.dropLast
    let path2 : String :=
      if !file_exists name path1 && parts.contains "files" then
        joinSlash (parts.erase "files").dropLast
      else path1
    if !file_exists name path2 then .err404
    else .files path2 name

/-! ### Claim predicates and helper lemmas -/

/-- The character class of the spec's cookie-name claim: alphanumeric or `-`. -/
def validCookieChar (c : Char) : Bool :=
  isAlphanumChar c || c == '-'

theorem format_exception_ne_empty (t : String) : format_exception t ≠ "" := by
  intro h
  have hlen := congrArg String.length h
  rw [format_exception, String.length_append] at hlen
  have h35 : ("Traceback (most recent call last):\n" : String).length = 35 := rfl
  have h0 : ("" : String).length = 0 := rfl
  rw [h35, h0] at hlen
  omega

theorem dropWhile_head?_false (p : Char → Bool) (l : List Char) :
    ∀ x, (l.dropWhile p).head? = some x → p x = false := by
  induction l with
  | nil => intro x h; simp [List.dropWhile] at h
  | cons a as ih =>
    intro x h
    rw [List.dropWhile_cons] at h
    by_cases hp : p a
    · rw [if_pos hp] at h
      exact ih x h
    · rw [if_neg hp] at h
      simp only [List.head?_cons, Option.some.injEq] at h
      subst h
      simpa using hp

theorem loop_root_mem_of_ne_nil (init p : String) (roots : List String)
    (h : roots ≠ []) : ffh_loop_root init p roots ∈ roots := by
  induction roots generalizing init with
  | nil => exact absurd rfl h
  | cons r rs ih =>
    rw [ffh_loop_root]
    by_cases hr : startswith (p ++ "/") r
    · simp [hr]
    · simp only [hr, if_false]
      rcases List.eq_nil_or_concat rs with hnil | _
      · subst hnil
        simp [ffh_loop_root]
      · have hrs : rs ≠ [] := by
          rintro rfl
          simp_all
        exact List.mem_cons_of_mem r (ih r hrs)

theorem loop_root_matches (init p : String) (roots : List String)
    (r₀ : String) (hmem : r₀ ∈ roots) (hm : startswith (p ++ "/") r₀ = true) :
    startswith (p ++ "/") (ffh_loop_root init p roots) = true := by
  induction roots generalizing init with
  | nil => cases hmem
  | cons r rs ih =>
    rw [ffh_loop_root]
    by_cases hr : startswith (p ++ "/") r
    · simp [hr]
    · simp only [hr, if_false]
      rcases List.mem_cons.mp hmem with rfl | hmem'
      · exact absurd hm (by simpa using hr)
      · exact ih r hmem'

theorem loop_root_no_match (init p : String) (roots : List String)
    (h : ∀ r ∈ roots, startswith (p ++ "/") r = false) :
    ffh_loop_root init p roots = roots.getLastD init := by
  induction roots generalizing init with
  | nil => rfl
  | cons r rs ih =>
    rw [ffh_loop_root]
    have hr := h r (List.mem_cons_self r rs)
    simp only [hr, Bool.false_eq_true, if_false]
    rw [ih r (fun x hx => h x (List.mem_cons_of_mem r hx))]
    cases rs <;> simp [List.getLastD]

/-! ### Claim theorems -/

/-- C7: for every cookie state and configuration, `get_current_user` never
returns the empty string, and when no cookie is present and no login
capability is configured it returns the anonymous sentinel `"anonymous"`;
otherwise it returns either an identity string or `none` (not logged in). -/
theorem C7_get_current_user_never_empty (cookie : Option String) (la : Bool) :
    get_current_user cookie la ≠ some "" ∧
    (cookie = none ∧ la = false → get_current_user cookie la = some "anonymous") := by
  constructor
  · cases cookie with
    | none => cases la <;> simp [get_current_user]
    | some s =>
      by_cases h : s = "" <;> simp [get_current_user, h]
  · rintro ⟨rfl, rfl⟩
    simp [get_current_user]

/-- C8 counterexample: with a configured `cookie_name` the settings value is
returned verbatim, so for the configuration `cookie_name = "weird_name!"` the
returned name contains characters (`_`, `!`) outside alphanumerics and `-`,
refuting the claim that for all configurations the name contains only
alphanumerics and `-`. -/
theorem C8_counterexample_configured_name :
    ¬ (∀ c ∈ (cookie_name (some "weird_name!") "host").data,
        validCookieChar c = true) := by
  decide

/-- C8 (amended): `cookie_name` is a pure function of host and configuration
(determinism is immediate in this embedding), and when no `cookie_name` is
configured, the default `username-<host>` with non-alphanumerics replaced by
`-` contains only alphanumeric characters and `-`. -/
theorem C8_cookie_name_default_charset (host : String) (c : Char)
    (hc : c ∈ (cookie_name none host).data) : validCookieChar c = true := by
  simp only [cookie_name, Option.getD, non_alphanum_sub, List.mem_map] at hc
  obtain ⟨a, _, rfl⟩ := hc
  by_cases h : isAlphanumChar a
  · simp [validCookieChar, h]
  · simp [validCookieChar, h]

theorem C8_cookie_name_witness :
    'u' ∈ (cookie_name none "my.host:8888").data ∧ validCookieChar 'u' = true :=
  ⟨by decide, C8_cookie_name_default_charset "my.host:8888" 'u' (by decide)⟩

/-- C9: when `write_error` is called without `exc_info`, the local
`exception` is never assigned, so building the template namespace raises an
unhandled `NameError`/`UnboundLocalError` instead of rendering a page —
whatever the status code, the `responses` table and the templating engine. -/
theorem C9_write_error_needs_exc_info (responses : Nat → Option String)
    (render : String → ErrorNs → Except PyErr String) (status_code : Nat) :
    write_error responses render status_code none =
      .error (.unboundLocal "exception") := rfl

/-- C10: `TrailingSlashHandler.get` redirects to the request URI (query
string included) with ALL trailing `/` characters removed: the redirect
target is a prefix of the URI, the dropped suffix consists only of `/`
characters, the target never ends in `/`, a URI of only slashes redirects to
the empty string, and a trailing slash after a query string is stripped. -/
theorem C10_trailing_slash_strip (uri : String) :
    (∃ n, uri = trailing_slash_get uri ++ String.mk (List.replicate n '/')) ∧
    (trailing_slash_get uri).data.getLast? ≠ some '/' ∧
    trailing_slash_get "/" = "" ∧
    trailing_slash_get "/a/b?q=c/" = "/a/b?q=c" := by
  refine ⟨?_, ?_, by decide, by decide⟩
  · refine ⟨(uri.data.reverse.takeWhile (fun c => c == '/')).reverse.length, ?_⟩
    apply String.ext
    show uri.data = (trailing_slash_get uri).data ++ _
    have hdata : (trailing_slash_get uri).data =
        (uri.data.reverse.dropWhile (fun c => c == '/')).reverse := rfl
    have hrep : (uri.data.reverse.takeWhile (fun c => c == '/')).reverse =
        List.replicate (uri.data.reverse.takeWhile (fun c => c == '/')).reverse.length '/' := by
      apply List.eq_replicate_of_mem
      intro b hb
      have hb' := List.mem_reverse.mp hb
      have := List.mem_takeWhile_imp hb'
      simpa using this
    have hsplit : uri.data =
        (uri.data.reverse.dropWhile (fun c => c == '/')).reverse ++
          (uri.data.reverse.takeWhile (fun c => c == '/')).reverse := by
      have h1 : uri.data.reverse.takeWhile (fun c => c == '/') ++
          uri.data.reverse.dropWhile (fun c => c == '/') = uri.data.reverse :=
        List.takeWhile_append_dropWhile _ _
      calc uri.data = uri.data.reverse.reverse := (List.reverse_reverse _).symm
        _ = (uri.data.reverse.takeWhile (fun c => c == '/') ++
              uri.data.reverse.dropWhile (fun c => c == '/')).reverse := by rw [h1]
        _ = _ := by rw [List.reverse_append]
    rw [hdata, ← hrep, hsplit]
    simp [String.data]
  · intro hlast
    have hdata : (trailing_slash_get uri).data =
        (uri.data.reverse.dropWhile (fun c => c == '/')).reverse := rfl
    rw [hdata, List.getLast?_reverse] at hlast
    have := dropWhile_head?_false (fun c => c == '/') uri.data.reverse '/' hlast
    simp at this

/-- C1 counterexample: with one root and a filesystem containing no files,
looking up the path `"a"` on an empty cache returns the `''` sentinel but
leaves the cache EMPTY (the sentinel is not stored), and a second call with
the resulting cache performs the filesystem search again — refuting the
claim that the not-found case is cached and the second call does not search. -/
theorem C1_counterexample_notfound_not_cached :
    (get_absolute_path (fun _ => false) ["/r/"] [] "a").result = "" ∧
    (get_absolute_path (fun _ => false) ["/r/"] [] "a").cache = [] ∧
    (get_absolute_path (fun _ => false) ["/r/"]
        (get_absolute_path (fun _ => false) ["/r/"] [] "a").cache "a").searched = true := by
  decide

/-- C1 (amended): on a cache miss `get_absolute_path` searches the roots in
order; on success it stores the absolute path in the cache and returns it,
and a second call with the same path returns the cached value without a
second filesystem search; on failure to find it returns the empty-string
sentinel WITHOUT storing it in the cache, so a second call with the same
missing path performs the filesystem search again. -/
theorem C1_get_absolute_path_cache_behavior (fs : String → Bool)
    (roots : List String) (cache : List (String × String)) (path : String) :
    (∀ v, cacheLookup cache path = some v →
       get_absolute_path fs roots cache path = ⟨v, cache, false⟩) ∧
    (cacheLookup cache path = none →
       ∀ a, filefind fs path roots = some a →
         get_absolute_path fs roots cache path = ⟨a, (path, a) :: cache, true⟩ ∧
         get_absolute_path fs roots ((path, a) :: cache) path =
           ⟨a, (path, a) :: cache, false⟩) ∧
    (cacheLookup cache path = none → filefind fs path roots = none →
       get_absolute_path fs roots cache path = ⟨"", cache, true⟩ ∧
       (get_absolute_path fs roots cache path).cache = cache) := by
  refine ⟨?_, ?_, ?_⟩
  · intro v hv
    simp [get_absolute_path, hv]
  · intro hmiss a ha
    refine ⟨by simp [get_absolute_path, hmiss, ha], ?_⟩
    have hhit : cacheLookup ((path, a) :: cache) path = some a := by
      simp [cacheLookup, List.find?]
    simp [get_absolute_path, hhit]
  · intro hmiss hnone
    simp [get_absolute_path, hmiss, hnone]

/-- C2: `FileFindHandler.validate_absolute_path` raises 404 on the `''`
sentinel; with separator-terminated roots it returns a path only when the
path with a trailing separator appended starts with one of the allowed
roots (so `/root-evil/f` against root `/root/` is rejected — final conjunct,
the framework's own validation answers 403); and when no root matches, the
call is delegated to the underlying framework's validation (with the last
root examined by the loop). -/
theorem C2_ffh_validate_containment (pexists isfile : String → Bool)
    (init : String) (roots : List String) (p : String) :
    (p = "" → ffh_validate_absolute_path pexists isfile init roots p = .httpError 404) ∧
    ((∀ r ∈ roots, endswith r "/" = true) → roots ≠ [] →
       ∀ q, ffh_validate_absolute_path pexists isfile init roots p = .ok q →
         q = p ∧ ∃ r ∈ roots, startswith (p ++ "/") r = true) ∧
    (p ≠ "" → (∀ r ∈ roots, startswith (p ++ "/") r = false) →
       ffh_validate_absolute_path pexists isfile init roots p =
         tornado_validate_absolute_path pexists isfile (roots.getLastD init) p) ∧
    (ffh_validate_absolute_path (fun _ => true) (fun _ => true) "/x/" ["/root/"]
       "/root-evil/f" = .httpError 403) := by
  refine ⟨?_, ?_, ?_, by decide⟩
  · intro hp
    simp [ffh_validate_absolute_path, hp]
  · intro hsep hne q hok
    by_cases hp : p = ""
    · simp [ffh_validate_absolute_path, hp] at hok
    · rw [ffh_validate_absolute_path, if_neg hp] at hok
      set r₀ := ffh_loop_root init p roots with hr₀
      have hmem : r₀ ∈ roots := loop_root_mem_of_ne_nil init p roots hne
      have hsep₀ : endswith r₀ "/" = true := hsep r₀ hmem
      rw [tornado_validate_absolute_path] at hok
      simp only [hsep₀, if_pos] at hok
      by_cases hstart : startswith (p ++ "/") r₀ = true
      · refine ⟨?_, r₀, hmem, hstart⟩
        simp only [hstart, Bool.not_true, Bool.false_eq_true, if_false] at hok
        by_cases he : pexists p = true <;> by_cases hf : isfile p = true <;>
          simp [he, hf] at hok
        exact hok.symm
      · simp only [Bool.not_eq_true] at hstart
        simp [hstart] at hok
  · intro hp hno
    rw [ffh_validate_absolute_path, if_neg hp, loop_root_no_match init p roots hno]

/-- C5: a resolved path that the framework's own validation accepts (it lies
under the separator-terminated root, exists and is a regular file) but that
is hidden relative to the root (some component of the relative path starts
with a dot) is rejected by `AuthenticatedFileHandler.validate_absolute_path`
with HTTP 404 — not 403 — so the file's existence is not revealed. -/
theorem C5_hidden_file_404 (pexists isfile : String → Bool) (root p : String)
    (hroot : startswith (p ++ "/")
       (if endswith root "/" then root else root ++ "/") = true)
    (hex : pexists p = true) (hf : isfile p = true)
    (hh : is_hidden p root = true) :
    afh_validate_absolute_path pexists isfile root p = .httpError 404 := by
  rw [afh_validate_absolute_path, tornado_validate_absolute_path]
  simp [hroot, hex, hf, hh]

theorem C5_hidden_file_404_witness :
    is_hidden "/r/.secret/f" "/r" = true ∧
    afh_validate_absolute_path (fun _ => true) (fun _ => true) "/r" "/r/.secret/f" =
      .httpError 404 :=
  ⟨by decide,
   C5_hidden_file_404 (fun _ => true) (fun _ => true) "/r" "/r/.secret/f"
     (by decide) rfl rfl (by decide)⟩

theorem acao_ne_acac :
    ("Access-Control-Allow-Origin" : String) ≠ "Access-Control-Allow-Credentials" := by
  decide

/-- C3 counterexample: with no exact origin, a match-everything pattern
configured, and a request carrying an empty `Origin` header, the extracted
origin is `some ""` and the pattern matches it, yet no
`Access-Control-Allow-Origin` header is emitted (the code additionally
requires the origin to be truthy, i.e. non-empty) — refuting "the header is
set to the request's origin exactly when the pattern matches that origin". -/
theorem C3_counterexample_empty_origin :
    get_origin [("Origin", "")] = some "" ∧
    (fun _ => true : String → Bool) "" = true ∧
    set_cors_headers ⟨"", some (fun _ => true), false⟩ [("Origin", "")] = [] :=
  ⟨rfl, rfl, rfl⟩

/-- C3 (amended): if an exact allowed origin is configured, the
`Access-Control-Allow-Origin` header carries exactly that value regardless of
the request; else if a pattern is configured, the header carries the
request's origin (from `Origin`, falling back to `Sec-Websocket-Origin`)
exactly when that origin is present, NON-EMPTY and matched by the pattern;
and `Access-Control-Allow-Credentials: true` is emitted exactly when the
credentials flag is set, independent of the origin outcome. -/
theorem C3_cors_header_policy (cfg : CorsConfig) (hdrs : List (String × String)) :
    (cfg.allow_origin ≠ "" →
       ∀ v, (("Access-Control-Allow-Origin", v) ∈ set_cors_headers cfg hdrs ↔
         v = cfg.allow_origin)) ∧
    (cfg.allow_origin = "" → ∀ pat, cfg.allow_origin_pat = some pat →
       ∀ v, (("Access-Control-Allow-Origin", v) ∈ set_cors_headers cfg hdrs ↔
         (get_origin hdrs = some v ∧ v ≠ "" ∧ pat v = true))) ∧
    (("Access-Control-Allow-Credentials", "true") ∈ set_cors_headers cfg hdrs ↔
       cfg.allow_credentials = true) := by
  refine ⟨?_, ?_, ?_⟩
  · intro h v
    rw [set_cors_headers, if_neg h]
    cases hc : cfg.allow_credentials <;>
      simp [List.mem_append, Prod.ext_iff, acao_ne_acac, eq_comm]
  · intro h pat hpat v
    rw [set_cors_headers, if_pos h, hpat]
    cases ho : get_origin hdrs with
    | none =>
      cases hc : cfg.allow_credentials <;>
        simp [List.mem_append, Prod.ext_iff, acao_ne_acac]
    | some o =>
      dsimp only
      by_cases hcond : (o ≠ "" && pat o) = true
      · rw [if_pos hcond]
        obtain ⟨ho', hpo⟩ := Bool.and_eq_true_iff.mp hcond
        have hoe : o ≠ "" := by simpa using ho'
        constructor
        · intro hmem
          rcases List.mem_append.mp hmem with h1 | h2
          · have hv : v = o := congrArg Prod.snd (List.mem_singleton.mp h1)
            subst hv
            exact ⟨rfl, hoe, hpo⟩
          · exfalso
            revert h2
            cases hc : cfg.allow_credentials <;> simp [Prod.ext_iff, acao_ne_acac]
        · rintro ⟨hov, -, -⟩
          injection hov with hov
          subst hov
          exact List.mem_append_left _ (List.mem_singleton.mpr rfl)
      · rw [if_neg hcond]
        rw [List.nil_append]
        constructor
        · intro h'
          exfalso
          revert h'
          cases hc : cfg.allow_credentials <;> simp [Prod.ext_iff, acao_ne_acac]
        · rintro ⟨hov, hv, hpv⟩
          injection hov with hov
          subst hov
          exact absurd (by simp [hv, hpv]) hcond
  · rw [set_cors_headers]
    by_cases h : cfg.allow_origin = ""
    · rw [if_pos h]
      cases hpat : cfg.allow_origin_pat with
      | none =>
        cases hc : cfg.allow_credentials <;>
          simp [List.mem_append, Prod.ext_iff, acao_ne_acac]
      | some pat =>
        cases ho : get_origin hdrs with
        | none =>
          cases hc : cfg.allow_credentials <;>
            simp [List.mem_append, Prod.ext_iff, acao_ne_acac]
        | some o =>
          dsimp only
          by_cases hcond : (o ≠ "" && pat o) = true <;>
            [rw [if_pos hcond]; rw [if_neg hcond]] <;>
            cases hc : cfg.allow_credentials <;>
              simp [List.mem_append, Prod.ext_iff, acao_ne_acac.symm]
    · rw [if_neg h]
      cases hc : cfg.allow_credentials <;>
        simp [List.mem_append, Prod.ext_iff, acao_ne_acac.symm]

theorem C3_cors_header_policy_witness :
    ("http://a" : String) ≠ "" ∧
    (("Access-Control-Allow-Origin", "http://a") ∈
       set_cors_headers ⟨"http://a", none, true⟩ []) :=
  ⟨by decide,
   ((C3_cors_header_policy ⟨"http://a", none, true⟩ []).1 (by decide)
       "http://a").mpr rfl⟩

/-- C4: the `json_errors` wrapper passes a normal return value through
unchanged; a structured `web.HTTPError` finishes the response with the
error's status code and the JSON body `{"message": <the error's message>}`;
any other exception finishes with status 500 and a JSON body whose
`"message"` is `"Unknown server error"` and whose `"traceback"` is a
non-empty formatted stack. -/
theorem C4_json_errors_envelope (α : Type) (r : MethodResult α) :
    (∀ v, r = .ok v → json_errors r = .returned v) ∧
    (∀ s m, r = .httpError s m →
       json_errors r = .finished s (.obj [("message", optMessageJson m)])) ∧
    (∀ t, r = .exn t → ∃ tb, tb ≠ "" ∧
       json_errors r = .finished 500
         (.obj [("message", .str "Unknown server error"),
                ("traceback", .str tb)])) := by
  refine ⟨?_, ?_, ?_⟩
  · rintro v rfl; rfl
  · rintro s m rfl; rfl
  · rintro t rfl
    exact ⟨format_exception t, format_exception_ne_empty t, rfl⟩

/-- C6: `FilesRedirectHandler.get` redirects to a tree URL when the contents
manager reports the path exists (as a directory); otherwise it splits the
path into `(parent, name)` at the last `/` and redirects to the /files URL
when the file exists there; when it does not exist there and the path
contains a literal `files` segment, it retries with the first such segment
removed — redirecting to the stripped /files URL if the file exists at the
stripped location and raising HTTP 404 if it still does not. -/
theorem C6_files_redirect_rules (path_exists : String → Bool)
    (file_exists : String → String → Bool) (path : String) :
    (path_exists path = true →
       files_redirect_get path_exists file_exists path = .tree path) ∧
    (path_exists path = false →
       file_exists ((splitSlash path).getLastD "")
           (joinSlash (splitSlash path).dropLast) = true →
       files_redirect_get path_exists file_exists path =
         .files (joinSlash (splitSlash path).dropLast)
           ((splitSlash path).getLastD "")) ∧
    (path_exists path = false →
       file_exists ((splitSlash path).getLastD "")
           (joinSlash (splitSlash path).dropLast) = false →
       "files" ∈ splitSlash path →
       (file_exists ((splitSlash path).getLastD "")
            (joinSlash ((splitSlash path).erase "files").dropLast) = true →
          files_redirect_get path_exists file_exists path =
            .files (joinSlash ((splitSlash path).erase "files").dropLast)
              ((splitSlash path).getLastD "")) ∧
       (file_exists ((splitSlash path).getLastD "")
            (joinSlash ((splitSlash path).erase "files").dropLast) = false →
          files_redirect_get path_exists file_exists path = .err404)) ∧
    (path_exists path = false →
       file_exists ((splitSlash path).getLastD "")
           (joinSlash (splitSlash path).dropLast) = false →
       "files" ∉ splitSlash path →
       files_redirect_get path_exists file_exists path = .err404) := by
  refine ⟨?_, ?_, ?_, ?_⟩
  · intro h
    simp [files_redirect_get, h]
  · intro h h1
    simp only [List.getLastD_eq_getLast?] at h1
    simp [files_redirect_get, h, h1]
  · intro h h1 hf
    simp only [List.getLastD_eq_getLast?] at h1
    refine ⟨?_, ?_⟩ <;> intro h2 <;>
      · simp only [List.getLastD_eq_getLast?] at h2
        simp [files_redirect_get, h, h1, hf, h2]
  · intro h h1 hf
    simp only [List.getLastD_eq_getLast?] at h1
    simp [files_redirect_get, h, h1, hf]

end Handlers
